import Mathlib

/-!
Shallow embedding of the task-sequencing and signal-simulation engine of
`src/battery_dashboard.py` (a Streamlit battery-cell dashboard).

Conventions of the embedding:
* Python floats are modelled as exact rationals (`ℚ`).
* The single call to `random.uniform` per simulation step (the temperature
  noise) is modelled by an explicit `tempNoise : ℚ` argument; theorems that
  need the noise bounded state the bound as a hypothesis.
* Python dicts holding cell / task records become Lean structures; a key the
  UI never writes for a given task type becomes an `Option` field (so that
  `dict.get(key, default)` becomes `Option.getD`).
* The Streamlit session state touched by the simulation tab becomes the
  `SimState` structure, and each mutating code path becomes a function from
  `SimState` to `SimState`.
-/

namespace BatteryDashboard

/-- Task types offered by the task-management form (`task_management_tab`):
"CC_CV", "CC_CD" and "IDLE". -/
inductive TaskType where
  | CC_CV
  | CC_CD
  | IDLE
deriving DecidableEq

/-- A task record as built by `task_management_tab` (lines 338-379).
`cv_voltage` and `current` are present only on CC_CV tasks (CC_CD tasks carry
a cutoff `voltage` and IDLE tasks carry nothing), hence `Option`; the engine
reads them through `.get(key, default)`.  The `cc_cp`, target-`capacity` and
cutoff-`voltage` entries of the Python dict are never read by the simulation
engine and are omitted. -/
structure Task where
  task_type : TaskType
  cv_voltage : Option ℚ := none
  current : Option ℚ := none
  time_seconds : ℚ
deriving DecidableEq

/-- A cell record as stored in `st.session_state.cells_data`
(`cell_configuration_tab`, lines 219-227 and 272-280). -/
structure Cell where
  type : String
  voltage : ℚ
  current : ℚ
  temp : ℚ
  capacity : ℚ
  min_voltage : ℚ
  max_voltage : ℚ
deriving DecidableEq

/-- Embedding of `simulate_task_execution` (lines 115-147).  The Python
function receives the cell key and copies the record out of the session
state; here the copied record is passed directly.  `tempNoise` stands for
the one `random.uniform` draw of the executed branch (unused by the IDLE
branch, which draws no randomness). -/
def simulate_task_execution (cell : Cell) (task : Task)
    (elapsed_time : ℚ) (tempNoise : ℚ) : Cell :=
  let cell1 :=
    match task.task_type with
    | TaskType.CC_CV =>
      if elapsed_time < task.time_seconds / 2 then
        { cell with
            current := task.current.getD 0,
            voltage := min (cell.voltage + 0.001 * elapsed_time)
                          (task.cv_voltage.getD cell.max_voltage),
            temp := min (cell.temp + tempNoise) 50 }
      else
        { cell with
            voltage := task.cv_voltage.getD cell.max_voltage,
            current := max (task.current.getD 0 * 0.95) 0.1,
            temp := min (cell.temp + tempNoise) 50 }
    | TaskType.CC_CD =>
        { cell with
            current := -|task.current.getD 0|,
            voltage := max (cell.voltage - 0.0005 * elapsed_time)
                          cell.min_voltage,
            temp := min (cell.temp + tempNoise) 45 }
    | TaskType.IDLE =>
        { cell with
            current := 0,
            temp := max (cell.temp - 0.05) 25 }
  { cell1 with capacity := |cell1.voltage * cell1.current| }

/-- Embedding of the task-lookup loop of `simulation_tab` (lines 525-537):
walk the ordered task list keeping a running `cumulative_time`; the active
task is the first whose window `[cumulative, cumulative + time_seconds)`
contains `elapsed`.  Returns the task, `task_elapsed` and `task_index`. -/
def resolveAux (tasks : List Task) (elapsed : ℚ) (cumulative : ℚ)
    (idx : ℕ) : Option (Task × ℚ × ℕ) :=
  match tasks with
  | [] => none
  | task :: rest =>
    if cumulative ≤ elapsed ∧ elapsed < cumulative + task.time_seconds then
      some (task, elapsed - cumulative, idx)
    else
      resolveAux rest elapsed (cumulative + task.time_seconds) (idx + 1)

/-- The scheduler entry point: the loop starts with `cumulative_time = 0`. -/
def resolve (tasks : List Task) (elapsed : ℚ) : Option (Task × ℚ × ℕ) :=
  resolveAux tasks elapsed 0 0

/-- Sum of a task list's durations (`cell_total_time = sum(task['time_seconds']
for task in tasks)`, line 431). -/
def cellTotalTime (tasks : List Task) : ℚ :=
  (tasks.map Task.time_seconds).sum

/-- Embedding of the per-cell body of the update loop (lines 538-555): if
`resolve` finds an active task the cell is advanced through
`simulate_task_execution`; otherwise the reported record is the cell's last
state, unchanged, tagged "COMPLETED". -/
def advanceCell (cell : Cell) (tasks : List Task) (elapsed : ℚ)
    (tempNoise : ℚ) : Cell × String :=
  match resolve tasks elapsed with
  | some (task, task_elapsed, _) =>
      (simulate_task_execution cell task task_elapsed tempNoise,
        match task.task_type with
        | TaskType.CC_CV => "CC_CV"
        | TaskType.CC_CD => "CC_CD"
        | TaskType.IDLE => "IDLE")
  | none => (cell, "COMPLETED")

/-- The loop body of the `total_time` computation (lines 429-434):
`if tasks: total_time = max(total_time, cell_total_time)`. -/
def totalStep (total : ℚ) (tasks : List Task) : ℚ :=
  if tasks = [] then total else max total (cellTotalTime tasks)

/-- Look a cell up by key in the `cells_data` association list
(`cell_key in st.session_state.cells_data` / `cells_data[cell_key]`). -/
def lookupCell (cells : List (String × Cell)) (key : String) : Option Cell :=
  (cells.find? (fun p => p.1 == key)).map Prod.snd

/-- Overwrite one cell record
(`st.session_state.cells_data[cell_key] = updated_cell_data`, line 544). -/
def setCell (cells : List (String × Cell)) (key : String) (c : Cell) :
    List (String × Cell) :=
  cells.map (fun p => if p.1 == key then (key, c) else p)

/-- Embedding of `sum of each cell's task durations, maximised over cells`
(lines 429-435): `total_time = 0; for tasks in tasks_data.values(): if tasks:
total_time = max(total_time, cell_total_time)`. -/
def totalSimulationTime (tasksLists : List (List Task)) : ℚ :=
  tasksLists.foldl totalStep 0

/-- The part of the Streamlit session state that the simulation tab reads and
writes (`initialize_session_state`, lines 71-88).  `cells_data` and
`tasks_data` are keyed by cell key; `simulation_data` is the append-only log,
one entry per executed tick that updated at least one cell. -/
structure SimState where
  cells_data : List (String × Cell) := []
  tasks_data : List (String × List Task) := []
  simulation_running : Bool := false
  simulation_data : List (ℚ × ℚ × List (String × Cell)) := []
  start_time : Option ℚ := none
  simulation_completed : Bool := false

/-- The Start button (lines 478-483): set running, record the start time,
clear the log, clear the completed flag. -/
def startSimulation (st : SimState) (now : ℚ) : SimState :=
  { st with
      simulation_running := true,
      start_time := some now,
      simulation_data := [],
      simulation_completed := false }

/-- The Stop button (lines 486-489): clear running and completed; the log and
start time are retained. -/
def stopSimulation (st : SimState) : SimState :=
  { st with simulation_running := false, simulation_completed := false }

/-- Elapsed run time as the simulation tab computes it (line 509):
`elapsed = current_time - st.session_state.start_time if
st.session_state.start_time else 0`. -/
def elapsedTime (st : SimState) (now : ℚ) : ℚ :=
  match st.start_time with
  | some s => now - s
  | none => 0

/-- One rerun of the running branch of `simulation_tab` (lines 503-562) at
wall-clock instant `now`, with `tempNoise` standing for the random draws of
this tick.  If `elapsed >= total_time` the run is marked completed and
stopped (`st.rerun()` aborts the script before any cell update).  Otherwise
every cell that has tasks is advanced: an active cell's record is written
back to `cells_data`, a finished cell's record is reported unchanged, and one
log row holding the updated records is appended when any cell was
reported. -/
def simulationTick (st : SimState) (now : ℚ) (tempNoise : ℚ) : SimState :=
  if st.simulation_running then
    let elapsed := elapsedTime st now
    let total := totalSimulationTime (st.tasks_data.map Prod.snd)
    if total ≤ elapsed then
      { st with simulation_running := false, simulation_completed := true }
    else
      let step := fun (acc : List (String × Cell) × List (String × Cell))
          (p : String × List Task) =>
        if p.2 = [] then acc
        else
          match lookupCell acc.1 p.1 with
          | none => acc
          | some cell =>
            match resolve p.2 elapsed with
            | some (task, task_elapsed, _) =>
                let updated :=
                  simulate_task_execution cell task task_elapsed tempNoise
                (setCell acc.1 p.1 updated, acc.2 ++ [(p.1, updated)])
            | none => (acc.1, acc.2 ++ [(p.1, cell)])
      let r := st.tasks_data.foldl step (st.cells_data, [])
      { st with
          cells_data := r.1,
          simulation_data :=
            if r.2 = [] then st.simulation_data
            else st.simulation_data ++ [(now, elapsed, r.2)] }
  else st

/-! Concrete fixtures used by the witnesses and counterexamples below.  All
numeric values are ones the configuration UI can produce: LFP cells get the
band [2.8, 3.6], CC_CV tasks default to `cv_voltage = 4.0`, and CC_CD tasks
never carry a `current` entry (the task form does not offer one). -/

/-- An LFP cell within its voltage band, carrying a nonzero last current. -/
def lfpCell : Cell :=
  { type := "LFP", voltage := 3.4, current := 2, temp := 30, capacity := 6.8,
    min_voltage := 2.8, max_voltage := 3.6 }

/-- An LFP cell whose temperature has drifted down to 19 °C. -/
def coldCell : Cell :=
  { type := "LFP", voltage := 3.2, current := 0, temp := 19, capacity := 0,
    min_voltage := 2.8, max_voltage := 3.6 }

/-- A 10-second CC_CV charge task. -/
def chargeTask10 : Task :=
  { task_type := TaskType.CC_CV, cv_voltage := some 4, current := some 2,
    time_seconds := 10 }

/-- A 5-second IDLE task. -/
def idleTask5 : Task := { task_type := TaskType.IDLE, time_seconds := 5 }

/-- A 10-second IDLE task. -/
def idleTask10 : Task := { task_type := TaskType.IDLE, time_seconds := 10 }

/-- A 20-second IDLE task. -/
def idleTask20 : Task := { task_type := TaskType.IDLE, time_seconds := 20 }

/-- A 300-second CC_CV task with the UI-default CV target 4.0 V. -/
def cvTask300 : Task :=
  { task_type := TaskType.CC_CV, cv_voltage := some 4, current := some 2,
    time_seconds := 300 }

/-- A 300-second CC_CV task whose CV target 3.55 V lies inside the LFP
band. -/
def cvTaskInBand : Task :=
  { task_type := TaskType.CC_CV, cv_voltage := some 3.55, current := some 2,
    time_seconds := 300 }

/-- A 600-second CC_CD task exactly as `task_management_tab` builds it: no
`current` entry. -/
def cdTask600 : Task := { task_type := TaskType.CC_CD, time_seconds := 600 }

/-- A CC_CD task carrying an explicit current parameter. -/
def cdTaskCur3 : Task :=
  { task_type := TaskType.CC_CD, current := some 3, time_seconds := 600 }

/-- A running two-cell session: cell 1 has 10 seconds of tasks, cell 2 has
20 seconds. -/
def twoCellState : SimState :=
  { cells_data := [("cell_1_lfp", lfpCell)],
    tasks_data := [("cell_1_lfp", [idleTask10]), ("cell_2_lfp", [idleTask20])],
    simulation_running := true,
    start_time := some 0 }

/-! Helper lemmas: branch-wise equations for `simulate_task_execution`,
arithmetic facts about `cellTotalTime`, window lemmas for `resolveAux` and
fold lemmas for `totalSimulationTime`. -/

lemma simulate_CC_CV_cc (cell : Cell) (cv' cur : Option ℚ) (ts e n : ℚ)
    (h : e < ts / 2) :
    simulate_task_execution cell
        { task_type := TaskType.CC_CV, cv_voltage := cv', current := cur,
          time_seconds := ts } e n
      = { cell with
            current := cur.getD 0,
            voltage := min (cell.voltage + 0.001 * e) (cv'.getD cell.max_voltage),
            temp := min (cell.temp + n) 50,
            capacity := |min (cell.voltage + 0.001 * e) (cv'.getD cell.max_voltage)
                          * cur.getD 0| } := by
  simp [simulate_task_execution, h]

lemma simulate_CC_CV_cv (cell : Cell) (cv' cur : Option ℚ) (ts e n : ℚ)
    (h : ¬ e < ts / 2) :
    simulate_task_execution cell
        { task_type := TaskType.CC_CV, cv_voltage := cv', current := cur,
          time_seconds := ts } e n
      = { cell with
            voltage := cv'.getD cell.max_voltage,
            current := max (cur.getD 0 * 0.95) 0.1,
            temp := min (cell.temp + n) 50,
            capacity := |cv'.getD cell.max_voltage
                          * max (cur.getD 0 * 0.95) 0.1| } := by
  simp [simulate_task_execution, h]

lemma simulate_CC_CD (cell : Cell) (cv' cur : Option ℚ) (ts e n : ℚ) :
    simulate_task_execution cell
        { task_type := TaskType.CC_CD, cv_voltage := cv', current := cur,
          time_seconds := ts } e n
      = { cell with
            current := -|cur.getD 0|,
            voltage := max (cell.voltage - 0.0005 * e) cell.min_voltage,
            temp := min (cell.temp + n) 45,
            capacity := abs (max (cell.voltage - 0.0005 * e) cell.min_voltage
                          * -(abs (cur.getD 0))) } := by
  simp [simulate_task_execution]

lemma simulate_IDLE (cell : Cell) (cv' cur : Option ℚ) (ts e n : ℚ) :
    simulate_task_execution cell
        { task_type := TaskType.IDLE, cv_voltage := cv', current := cur,
          time_seconds := ts } e n
      = { cell with
            current := 0,
            temp := max (cell.temp - 0.05) 25,
            capacity := |cell.voltage * 0| } := by
  simp [simulate_task_execution]

lemma cellTotalTime_nil : cellTotalTime [] = 0 := rfl

lemma cellTotalTime_cons (t : Task) (rest : List Task) :
    cellTotalTime (t :: rest) = t.time_seconds + cellTotalTime rest := by
  simp [cellTotalTime]

lemma cellTotalTime_nonneg (tasks : List Task)
    (h : ∀ t ∈ tasks, 0 ≤ t.time_seconds) : 0 ≤ cellTotalTime tasks := by
  induction tasks with
  | nil => simp [cellTotalTime]
  | cons t rest ih =>
    rw [cellTotalTime_cons]
    have h1 := h t (List.mem_cons_self t rest)
    have h2 := ih fun x hx => h x (List.mem_cons_of_mem _ hx)
    linarith

lemma resolveAux_eq_none (tasks : List Task) :
    ∀ (elapsed cumulative : ℚ) (idx : ℕ),
      (∀ t ∈ tasks, 0 ≤ t.time_seconds) →
      cumulative + cellTotalTime tasks ≤ elapsed →
      resolveAux tasks elapsed cumulative idx = none := by
  induction tasks with
  | nil => intro e c i _ _; rfl
  | cons task rest ih =>
    intro e c i hnn h
    rw [cellTotalTime_cons] at h
    have hrest : 0 ≤ cellTotalTime rest :=
      cellTotalTime_nonneg rest fun x hx => hnn x (List.mem_cons_of_mem _ hx)
    simp only [resolveAux]
    rw [if_neg]
    · exact ih e (c + task.time_seconds) (i + 1)
        (fun x hx => hnn x (List.mem_cons_of_mem _ hx)) (by linarith)
    · rintro ⟨_, h2⟩
      linarith

lemma resolveAux_isSome (tasks : List Task) :
    ∀ (elapsed cumulative : ℚ) (idx : ℕ),
      cumulative ≤ elapsed →
      elapsed < cumulative + cellTotalTime tasks →
      ∃ r, resolveAux tasks elapsed cumulative idx = some r := by
  induction tasks with
  | nil =>
    intro e c i h1 h2
    rw [cellTotalTime_nil] at h2
    exact absurd h2 (by linarith)
  | cons task rest ih =>
    intro e c i h1 h2
    by_cases hc : e < c + task.time_seconds
    · exact ⟨(task, e - c, i), by simp only [resolveAux, if_pos (And.intro h1 hc)]⟩
    · push_neg at hc
      rw [cellTotalTime_cons] at h2
      obtain ⟨r, hr⟩ := ih e (c + task.time_seconds) (i + 1) hc (by linarith)
      refine ⟨r, ?_⟩
      simp only [resolveAux]
      rw [if_neg]
      · exact hr
      · rintro ⟨_, hlt⟩
        linarith

lemma resolveAux_boundary (pre : List Task) :
    ∀ (task : Task) (rest : List Task) (cumulative : ℚ) (idx : ℕ),
      (∀ t ∈ pre, 0 ≤ t.time_seconds) →
      0 < task.time_seconds →
      resolveAux (pre ++ task :: rest) (cumulative + cellTotalTime pre)
          cumulative idx
        = some (task, 0, idx + pre.length) := by
  induction pre with
  | nil =>
    intro task rest c i _ htask
    simp only [List.nil_append, cellTotalTime_nil, add_zero, resolveAux]
    rw [if_pos ⟨le_refl c, by linarith⟩]
    simp
  | cons p pre ih =>
    intro task rest c i hpre htask
    have hp : 0 ≤ p.time_seconds := hpre p (List.mem_cons_self p pre)
    have hpre' : ∀ t ∈ pre, 0 ≤ t.time_seconds :=
      fun x hx => hpre x (List.mem_cons_of_mem _ hx)
    have hS : 0 ≤ cellTotalTime pre := cellTotalTime_nonneg pre hpre'
    simp only [List.cons_append, cellTotalTime_cons, resolveAux]
    rw [if_neg]
    · rw [← add_assoc, List.length_cons]
      have hidx : i + 1 + pre.length = i + (pre.length + 1) := by omega
      rw [← hidx]
      exact ih task rest (c + p.time_seconds) (i + 1) hpre' htask
    · rintro ⟨_, hlt⟩
      linarith

lemma totalStep_le (total : ℚ) (tasks : List Task) :
    total ≤ totalStep total tasks := by
  unfold totalStep
  split
  · exact le_refl total
  · exact le_max_left _ _

lemma foldl_totalStep_le (l : List (List Task)) :
    ∀ init : ℚ, init ≤ l.foldl totalStep init := by
  induction l with
  | nil => intro init; exact le_refl init
  | cons x l ih =>
    intro init
    exact le_trans (totalStep_le init x) (ih (totalStep init x))

lemma le_foldl_totalStep_of_mem (l : List (List Task)) :
    ∀ (init : ℚ) (tasks : List Task), tasks ∈ l → tasks ≠ [] →
      cellTotalTime tasks ≤ l.foldl totalStep init := by
  induction l with
  | nil => intro _ _ h _; exact absurd h (List.not_mem_nil _)
  | cons x l ih =>
    intro init tasks hmem hne
    rw [List.foldl_cons]
    rcases List.mem_cons.mp hmem with heq | hmem'
    · subst heq
      refine le_trans ?_ (foldl_totalStep_le l (totalStep init tasks))
      rw [totalStep, if_neg hne]
      exact le_max_right _ _
    · exact ih (totalStep init x) tasks hmem' hne

lemma foldl_totalStep_attained (l : List (List Task)) :
    ∀ init : ℚ, l.foldl totalStep init = init
      ∨ ∃ tasks, tasks ∈ l ∧ l.foldl totalStep init = cellTotalTime tasks := by
  induction l with
  | nil => intro _; left; rfl
  | cons x l ih =>
    intro init
    rw [List.foldl_cons]
    rcases ih (totalStep init x) with h | ⟨tasks, hmem, heq⟩
    · by_cases hx : x = []
      · left
        rw [h, totalStep, if_pos hx]
      · have hstep : totalStep init x = init ∨ totalStep init x = cellTotalTime x := by
          rw [totalStep, if_neg hx]
          exact max_choice _ _
        rcases hstep with hm | hm
        · left; exact h.trans hm
        · right; exact ⟨x, List.mem_cons_self x l, h.trans hm⟩
    · right; exact ⟨tasks, List.mem_cons_of_mem x hmem, heq⟩

lemma simulate_voltage_nonneg (cell : Cell) (task : Task) (e n : ℚ)
    (hv : 0 ≤ cell.voltage) (hmin : 0 ≤ cell.min_voltage)
    (hcv : 0 ≤ task.cv_voltage.getD cell.max_voltage) (ht : 0 ≤ e) :
    0 ≤ (simulate_task_execution cell task e n).voltage := by
  obtain ⟨tt, cv', cur, ts⟩ := task
  dsimp only at hcv
  cases tt with
  | CC_CV =>
    by_cases h : e < ts / 2
    · rw [simulate_CC_CV_cc cell cv' cur ts e n h]
      dsimp only
      have he : 0 ≤ 0.001 * e := mul_nonneg (by norm_num) ht
      exact le_min (by linarith) hcv
    · rw [simulate_CC_CV_cv cell cv' cur ts e n h]
      exact hcv
  | CC_CD =>
    rw [simulate_CC_CD]
    exact le_trans hmin (le_max_right _ _)
  | IDLE =>
    rw [simulate_IDLE]
    exact hv

lemma simulate_capacity_abs (cell : Cell) (task : Task) (e n : ℚ) :
    (simulate_task_execution cell task e n).capacity
      = |(simulate_task_execution cell task e n).voltage
          * (simulate_task_execution cell task e n).current| := by
  obtain ⟨tt, cv', cur, ts⟩ := task
  cases tt with
  | CC_CV => simp only [simulate_task_execution]
  | CC_CD => rfl
  | IDLE => rfl

lemma simulate_capacity_noise_independent (cell : Cell) (task : Task)
    (e n1 n2 : ℚ) :
    (simulate_task_execution cell task e n1).capacity
      = (simulate_task_execution cell task e n2).capacity := by
  obtain ⟨tt, cv', cur, ts⟩ := task
  cases tt with
  | CC_CV =>
    simp only [simulate_task_execution]
    split_ifs <;> rfl
  | CC_CD => rfl
  | IDLE => rfl

/-- C1: for every cell, every task type and every elapsed time within the
task, the reading produced by one `simulate_task_execution` step satisfies
`capacity = voltage * |current|` exactly, and the capacity does not depend on
the step's random draw — it is derived from voltage and current, never
independently randomized or mutated. -/
theorem c1_capacity_derived (cell : Cell) (task : Task) (e n : ℚ)
    (hv : 0 ≤ cell.voltage) (hmin : 0 ≤ cell.min_voltage)
    (hcv : 0 ≤ task.cv_voltage.getD cell.max_voltage) (ht : 0 ≤ e) :
    (simulate_task_execution cell task e n).capacity
        = (simulate_task_execution cell task e n).voltage
          * |(simulate_task_execution cell task e n).current|
      ∧ ∀ n2 : ℚ, (simulate_task_execution cell task e n2).capacity
          = (simulate_task_execution cell task e n).capacity := by
  constructor
  · rw [simulate_capacity_abs, abs_mul,
      abs_of_nonneg (simulate_voltage_nonneg cell task e n hv hmin hcv ht)]
  · intro n2
    exact simulate_capacity_noise_independent cell task e n2 n

/-- Witness for C1 at a concrete LFP cell and CC_CV task. -/
theorem c1_capacity_derived_witness :
    (simulate_task_execution lfpCell cvTask300 150 0).capacity
      = (simulate_task_execution lfpCell cvTask300 150 0).voltage
        * |(simulate_task_execution lfpCell cvTask300 150 0).current| :=
  (c1_capacity_derived lfpCell cvTask300 150 0 (by norm_num [lfpCell])
    (by norm_num [lfpCell]) (by norm_num [cvTask300, lfpCell])
    (by norm_num)).1

/-- C2 counterexample: an LFP cell whose voltage 3.4 lies inside its band
[2.8, 3.6], executing a CC_CV task with the UI-default CV target 4.0 V, ends
the step at 4.0 V — outside the band.  The claim that the output voltage
always stays within [min_voltage, max_voltage] is false: the CV phase writes
`cv_voltage` unclamped. -/
theorem c2_voltage_band_counterexample :
    (lfpCell.min_voltage ≤ lfpCell.voltage
        ∧ lfpCell.voltage ≤ lfpCell.max_voltage)
      ∧ (simulate_task_execution lfpCell cvTask300 150 0).voltage = 4
      ∧ ¬ ((simulate_task_execution lfpCell cvTask300 150 0).voltage
            ≤ lfpCell.max_voltage) := by
  norm_num [simulate_task_execution, lfpCell, cvTask300]

/-- C2 (amended): if the cell's voltage starts inside
[min_voltage, max_voltage] and the task's effective CV target
(`cv_voltage`, defaulting to the cell's max_voltage) also lies inside that
band, then the voltage after one simulation step stays inside the band, for
every task type and chemistry. -/
theorem c2_voltage_band (cell : Cell) (task : Task) (e n : ℚ)
    (ht : 0 ≤ e)
    (hlo : cell.min_voltage ≤ cell.voltage)
    (hhi : cell.voltage ≤ cell.max_voltage)
    (hcv1 : cell.min_voltage ≤ task.cv_voltage.getD cell.max_voltage)
    (hcv2 : task.cv_voltage.getD cell.max_voltage ≤ cell.max_voltage) :
    cell.min_voltage ≤ (simulate_task_execution cell task e n).voltage
      ∧ (simulate_task_execution cell task e n).voltage ≤ cell.max_voltage := by
  obtain ⟨tt, cv', cur, ts⟩ := task
  dsimp only at hcv1 hcv2
  cases tt with
  | CC_CV =>
    by_cases h : e < ts / 2
    · rw [simulate_CC_CV_cc cell cv' cur ts e n h]
      dsimp only
      have he : 0 ≤ 0.001 * e := mul_nonneg (by norm_num) ht
      exact ⟨le_min (by linarith) hcv1, le_trans (min_le_right _ _) hcv2⟩
    · rw [simulate_CC_CV_cv cell cv' cur ts e n h]
      exact ⟨hcv1, hcv2⟩
  | CC_CD =>
    rw [simulate_CC_CD]
    dsimp only
    have he : 0 ≤ 0.0005 * e := mul_nonneg (by norm_num) ht
    exact ⟨le_max_right _ _, max_le (by linarith) (hcv1.trans hcv2)⟩
  | IDLE =>
    rw [simulate_IDLE]
    exact ⟨hlo, hhi⟩

/-- Witness for the amended C2 at a CC_CV task whose CV target lies inside
the LFP band. -/
theorem c2_voltage_band_witness :
    lfpCell.min_voltage
        ≤ (simulate_task_execution lfpCell cvTaskInBand 150 0).voltage
      ∧ (simulate_task_execution lfpCell cvTaskInBand 150 0).voltage
          ≤ lfpCell.max_voltage :=
  c2_voltage_band lfpCell cvTaskInBand 150 0 (by norm_num)
    (by norm_num [lfpCell]) (by norm_num [lfpCell])
    (by norm_num [cvTaskInBand, lfpCell]) (by norm_num [cvTaskInBand, lfpCell])

/-- C3 counterexample: a cell whose tasks (10 s of IDLE) are exhausted at
elapsed time 12 is reported with its record held unchanged — the last
current 2 A and capacity 6.8 are kept; current is not forced to 0 and
capacity is not recomputed as 0. -/
theorem c3_terminal_state_counterexample :
    resolve [idleTask10] 12 = none
      ∧ (advanceCell lfpCell [idleTask10] 12 0).1.current = 2
      ∧ (advanceCell lfpCell [idleTask10] 12 0).1.capacity = 6.8
      ∧ ¬ ((advanceCell lfpCell [idleTask10] 12 0).1.current = 0) := by
  norm_num [advanceCell, resolve, resolveAux, idleTask10, lfpCell]

/-- C3 (amended): whenever scheduler resolution finds no active task for a
cell (elapsed time at or beyond the cell's total task duration), the cell's
reported state is its entire last record unchanged — voltage, temperature,
current and capacity all hold their last values (current is not forced to 0
and capacity is not recomputed) — tagged "COMPLETED". -/
theorem c3_terminal_state_holds (cell : Cell) (tasks : List Task) (e n : ℚ)
    (hnn : ∀ t ∈ tasks, 0 ≤ t.time_seconds)
    (h : cellTotalTime tasks ≤ e) :
    advanceCell cell tasks e n = (cell, "COMPLETED") := by
  have hres : resolve tasks e = none := by
    rw [resolve]
    exact resolveAux_eq_none tasks e 0 0 hnn (by linarith)
  simp [advanceCell, hres]

/-- Witness for the amended C3. -/
theorem c3_terminal_state_holds_witness :
    advanceCell lfpCell [idleTask10] 12 0 = (lfpCell, "COMPLETED") :=
  c3_terminal_state_holds lfpCell [idleTask10] 12 0
    (by norm_num [idleTask10]) (by norm_num [cellTotalTime, idleTask10])

/-- C4: with positive durations, an elapsed time equal to a
cumulative-duration boundary selects the task starting there (half-open
windows), never the task ending there; in particular for
[{CC_CV, 10 s}, {IDLE, 5 s}] at elapsed 12 the active task is IDLE with 2
seconds elapsed within it. -/
theorem c4_boundary_belongs_to_next (pre : List Task) (task : Task)
    (rest : List Task)
    (hpos : ∀ t ∈ pre ++ task :: rest, 0 < t.time_seconds) :
    resolve (pre ++ task :: rest) (cellTotalTime pre)
        = some (task, 0, pre.length)
      ∧ resolve [chargeTask10, idleTask5] 12 = some (idleTask5, 2, 1) := by
  constructor
  · have hpre : ∀ t ∈ pre, 0 ≤ t.time_seconds :=
      fun t htm => le_of_lt (hpos t (List.mem_append_left _ htm))
    have htask : 0 < task.time_seconds :=
      hpos task (List.mem_append_right _ (List.mem_cons_self _ _))
    have hb := resolveAux_boundary pre task rest 0 0 hpre htask
    rw [zero_add] at hb
    rw [resolve, hb]
    simp
  · norm_num [resolve, resolveAux, chargeTask10, idleTask5]

/-- Witness for C4 at the concrete boundary elapsed = 10 of
[{CC_CV, 10 s}, {IDLE, 5 s}]. -/
theorem c4_boundary_belongs_to_next_witness :
    resolve ([chargeTask10] ++ idleTask5 :: []) (cellTotalTime [chargeTask10])
        = some (idleTask5, 0, 1)
      ∧ resolve [chargeTask10, idleTask5] 12 = some (idleTask5, 2, 1) := by
  have h := c4_boundary_belongs_to_next [chargeTask10] idleTask5 []
    (by norm_num [chargeTask10, idleTask5])
  exact ⟨h.1, h.2⟩

/-- C5: for every task list with nonnegative durations and every elapsed
time at or beyond the sum of the list's durations, scheduler resolution
returns no active task. -/
theorem c5_resolve_completed (tasks : List Task) (e : ℚ)
    (hnn : ∀ t ∈ tasks, 0 ≤ t.time_seconds)
    (h : cellTotalTime tasks ≤ e) :
    resolve tasks e = none := by
  rw [resolve]
  exact resolveAux_eq_none tasks e 0 0 hnn (by linarith)

/-- Witness for C5. -/
theorem c5_resolve_completed_witness :
    resolve [chargeTask10, idleTask5] 15 = none :=
  c5_resolve_completed [chargeTask10, idleTask5] 15
    (by norm_num [chargeTask10, idleTask5])
    (by norm_num [cellTotalTime, chargeTask10, idleTask5])

/-- C6 counterexample: a CC_CD task exactly as the task form builds it
carries no `current` entry, so `task_data.get("current", 0)` is 0 and the
synthesized current is `-abs(0) = 0` — not negative, and not drawn from any
random range. -/
theorem c6_discharge_current_counterexample :
    cdTask600.current = none
      ∧ (simulate_task_execution lfpCell cdTask600 5 0).current = 0
      ∧ ¬ ((simulate_task_execution lfpCell cdTask600 5 0).current < 0) := by
  norm_num [simulate_task_execution, cdTask600, lfpCell]

/-- C6 (amended): during every simulation step of a CC_CD task the
synthesized current equals minus the absolute value of the task's current
parameter (0 when the parameter is absent, as it is for every task the task
form creates) — deterministically nonpositive, with no random draw
involved. -/
theorem c6_discharge_current (cell : Cell) (task : Task) (e n : ℚ)
    (h : task.task_type = TaskType.CC_CD) :
    (simulate_task_execution cell task e n).current = -|task.current.getD 0|
      ∧ (simulate_task_execution cell task e n).current ≤ 0
      ∧ (task.current = none
          → (simulate_task_execution cell task e n).current = 0) := by
  obtain ⟨tt, cv', cur, ts⟩ := task
  dsimp only at h
  subst h
  rw [simulate_CC_CD]
  refine ⟨rfl, neg_nonpos.mpr (abs_nonneg _), fun hc => ?_⟩
  dsimp only at hc ⊢
  subst hc
  simp

/-- Witness for the amended C6 at a CC_CD task with current parameter 3 A. -/
theorem c6_discharge_current_witness :
    (simulate_task_execution lfpCell cdTaskCur3 5 0).current
        = -|cdTaskCur3.current.getD 0|
      ∧ (simulate_task_execution lfpCell cdTaskCur3 5 0).current ≤ 0 := by
  have h := c6_discharge_current lfpCell cdTaskCur3 5 0 rfl
  exact ⟨h.1, h.2.1⟩

/-- C7: the run's total simulation time is the maximum over all configured
cells of the sum of that cell's task durations (0 when no cell has tasks);
a running tick marks the run completed exactly when the elapsed time reaches
that total; and at any earlier instant a cell whose own total duration has
passed resolves to no active task (it reports completed and stops changing)
while a cell with remaining duration still resolves to an active task. -/
theorem c7_total_time_and_completion (st : SimState) (now s n : ℚ)
    (hrun : st.simulation_running = true)
    (hstart : st.start_time = some s)
    (hnc : st.simulation_completed = false) :
    (∀ p ∈ st.tasks_data,
        cellTotalTime p.2 ≤ totalSimulationTime (st.tasks_data.map Prod.snd))
      ∧ (totalSimulationTime (st.tasks_data.map Prod.snd) = 0
          ∨ ∃ p ∈ st.tasks_data,
              totalSimulationTime (st.tasks_data.map Prod.snd)
                = cellTotalTime p.2)
      ∧ ((simulationTick st now n).simulation_completed = true
          ↔ totalSimulationTime (st.tasks_data.map Prod.snd) ≤ now - s)
      ∧ (∀ p ∈ st.tasks_data, (∀ t ∈ p.2, 0 ≤ t.time_seconds)
          → cellTotalTime p.2 ≤ now - s → resolve p.2 (now - s) = none)
      ∧ (∀ p ∈ st.tasks_data, 0 ≤ now - s → now - s < cellTotalTime p.2
          → ∃ r, resolve p.2 (now - s) = some r) := by
  refine ⟨?_, ?_, ?_, ?_, ?_⟩
  · intro p hp
    by_cases hnil : p.2 = []
    · rw [hnil, cellTotalTime_nil, totalSimulationTime]
      exact foldl_totalStep_le _ 0
    · rw [totalSimulationTime]
      exact le_foldl_totalStep_of_mem _ 0 p.2 (List.mem_map_of_mem Prod.snd hp)
        hnil
  · rw [totalSimulationTime]
    rcases foldl_totalStep_attained (st.tasks_data.map Prod.snd) 0 with
      h | ⟨tasks, hmem, heq⟩
    · left; exact h
    · right
      obtain ⟨p, hp, hsnd⟩ := List.mem_map.mp hmem
      exact ⟨p, hp, by rw [heq, hsnd]⟩
  · by_cases hle :
      totalSimulationTime (st.tasks_data.map Prod.snd) ≤ now - s
    · simp [simulationTick, hrun, elapsedTime, hstart, hle]
    · simp [simulationTick, hrun, elapsedTime, hstart, hle, hnc]
  · intro p hp hnn hle
    rw [resolve]
    exact resolveAux_eq_none p.2 (now - s) 0 0 hnn (by linarith)
  · intro p hp h0 hlt
    simp only [resolve]
    exact resolveAux_isSome p.2 (now - s) 0 0 h0 (by linarith)

/-- Witness for C7: cell 1 has 10 s of tasks, cell 2 has 20 s; at elapsed
10 cell 1 is completed while cell 2 is still active, and the tick at elapsed
20 marks the whole run completed. -/
theorem c7_total_time_and_completion_witness :
    resolve [idleTask10] (10 - 0) = none
      ∧ (∃ r, resolve [idleTask20] (10 - 0) = some r)
      ∧ (simulationTick twoCellState 20 0).simulation_completed = true := by
  have h10 := c7_total_time_and_completion twoCellState 10 0 0 rfl rfl rfl
  have h20 := c7_total_time_and_completion twoCellState 20 0 0 rfl rfl rfl
  refine ⟨?_, ?_, ?_⟩
  · exact h10.2.2.2.1 ("cell_1_lfp", [idleTask10]) (by simp [twoCellState])
      (by norm_num [idleTask10]) (by norm_num [cellTotalTime, idleTask10])
  · exact h10.2.2.2.2 ("cell_2_lfp", [idleTask20]) (by simp [twoCellState])
      (by norm_num) (by norm_num [cellTotalTime, idleTask20])
  · exact h20.2.2.1.mpr
      (by norm_num [totalSimulationTime, totalStep, cellTotalTime,
        twoCellState, idleTask10, idleTask20])

/-- C8 counterexample: an in-range noise draw of -0.1 on a CC_CV step takes
a cell's temperature from 19 °C to 18.9 °C — below the claimed fixed band
[20, 60]; the CC_CV branch clamps temperature only from above (at 50), never
from below. -/
theorem c8_temperature_band_counterexample :
    ((-0.1 : ℚ) ≤ -0.1 ∧ (-0.1 : ℚ) ≤ 0.3)
      ∧ (simulate_task_execution coldCell cvTask300 10 (-0.1)).temp = 18.9
      ∧ ¬ (20 ≤ (simulate_task_execution coldCell cvTask300 10 (-0.1)).temp) := by
  norm_num [simulate_task_execution, coldCell, cvTask300]

/-- C8 (amended): temperature clamping is task-specific, not a single fixed
band: a CC_CV step clamps temperature from above at 50 °C, a CC_CD step from
above at 45 °C, and an IDLE step from below at 25 °C (computing exactly
`max (temp - 0.05) 25`); no task-independent [20, 60] clamp exists. -/
theorem c8_temperature_clamps (cell : Cell) (task : Task) (e n : ℚ) :
    (task.task_type = TaskType.CC_CV
        → (simulate_task_execution cell task e n).temp ≤ 50)
      ∧ (task.task_type = TaskType.CC_CD
        → (simulate_task_execution cell task e n).temp ≤ 45)
      ∧ (task.task_type = TaskType.IDLE
        → (simulate_task_execution cell task e n).temp
              = max (cell.temp - 0.05) 25
          ∧ 25 ≤ (simulate_task_execution cell task e n).temp) := by
  obtain ⟨tt, cv', cur, ts⟩ := task
  cases tt with
  | CC_CV =>
    refine ⟨fun _ => ?_, fun h => TaskType.noConfusion h,
      fun h => TaskType.noConfusion h⟩
    by_cases hlt : e < ts / 2
    · rw [simulate_CC_CV_cc cell cv' cur ts e n hlt]
      exact min_le_right _ _
    · rw [simulate_CC_CV_cv cell cv' cur ts e n hlt]
      exact min_le_right _ _
  | CC_CD =>
    refine ⟨fun h => TaskType.noConfusion h, fun _ => ?_,
      fun h => TaskType.noConfusion h⟩
    rw [simulate_CC_CD]
    exact min_le_right _ _
  | IDLE =>
    refine ⟨fun h => TaskType.noConfusion h, fun h => TaskType.noConfusion h,
      fun _ => ?_⟩
    rw [simulate_IDLE]
    exact ⟨rfl, le_max_right _ _⟩

/-- Witness for the amended C8 at concrete tasks of each type. -/
theorem c8_temperature_clamps_witness :
    (simulate_task_execution lfpCell cvTask300 10 0).temp ≤ 50
      ∧ (simulate_task_execution lfpCell cdTask600 10 0).temp ≤ 45
      ∧ 25 ≤ (simulate_task_execution lfpCell idleTask10 10 0).temp :=
  ⟨(c8_temperature_clamps lfpCell cvTask300 10 0).1 rfl,
    (c8_temperature_clamps lfpCell cdTask600 10 0).2.1 rfl,
    ((c8_temperature_clamps lfpCell idleTask10 10 0).2.2 rfl).2⟩

/-- C9: Stop followed by Start yields an empty simulation log and elapsed
time 0, regardless of the prior run's state: Start clears the log and resets
the start-time reference to the current instant. -/
theorem c9_stop_start_resets (st : SimState) (now : ℚ) :
    (startSimulation (stopSimulation st) now).simulation_data = []
      ∧ elapsedTime (startSimulation (stopSimulation st) now) now = 0 := by
  constructor
  · rfl
  · simp [elapsedTime, startSimulation, stopSimulation]

/-- C10: one `simulate_task_execution` step never changes the cell's `type`,
`min_voltage` or `max_voltage` fields; being a pure function on a copied
record, it leaves the stored record untouched and only voltage, current,
temp and capacity can differ in the returned record. -/
theorem c10_frame_fields_unchanged (cell : Cell) (task : Task) (e n : ℚ) :
    (simulate_task_execution cell task e n).type = cell.type
      ∧ (simulate_task_execution cell task e n).min_voltage = cell.min_voltage
      ∧ (simulate_task_execution cell task e n).max_voltage = cell.max_voltage := by
  obtain ⟨tt, cv', cur, ts⟩ := task
  cases tt with
  | CC_CV =>
    simp only [simulate_task_execution]
    split_ifs <;> exact ⟨rfl, rfl, rfl⟩
  | CC_CD => exact ⟨rfl, rfl, rfl⟩
  | IDLE => exact ⟨rfl, rfl, rfl⟩

end BatteryDashboard

